import Mathlib

/-!
Shallow embedding of `src/common/displayport/src/dp_auxretry.cpp`:
the DisplayPort AUX bounded-retry transaction layer (chunked retry engine,
outcome classifier `handleTransaction`, and the `AuxLogger` trace decorator).

Modelling conventions:
* C++ `unsigned` sizes, counts and retry budgets become `Nat` (the source
  never underflows or overflows them: sizes are bounded by the span length,
  the budget is decremented only when nonzero).
* DPCD addresses (`int` in the source) become `Int`.
* The single-transaction channel `AuxBus` is an external collaborator; it is
  modelled as a state machine `Chan σ`: a transaction consumes a state and
  returns a new state, a raw status and a completed byte count.  Buffer
  contents are opaque to the retry engine (only the channel reads or writes
  them), so buffers are not modelled; the trace of issued single-transaction
  calls records the (action, type, address, size) of each call instead.
* The four reserved mailbox addresses and the message-header decoder come
  from headers outside this file's source; they are modelled as opaque
  constants / an opaque function parameter, see their doc comments.
-/

/-- Raw transaction status of the underlying transport (`AuxBus::status`).
`other` stands for any transport-level status besides the three the source
compares against — `handleTransaction` only tests equality with `success`,
`defer` and `nack`. -/
inductive AuxBus.status where
  | success
  | defer
  | nack
  | other
deriving DecidableEq, Repr

/-- Transaction action (`AuxBus::Action`). -/
inductive AuxBus.Action where
  | read
  | write
deriving DecidableEq, Repr

/-- Addressing mode (`AuxBus::Type`): `native` (direct DPCD register) versus
the i2c-over-AUX modes, which the source only passes through. -/
inductive AuxBus.AddrType where
  | native
  | i2c
  | i2cMot
deriving DecidableEq, Repr

/-- Classified outcome (`AuxRetry::status`). -/
inductive AuxRetry.status where
  | ack
  | nack
  | defer
  | unsupportedRegister
deriving DecidableEq, Repr

/-- Result of one raw transaction of the channel: the channel's next state,
the raw status, and the completed byte count (`*sizeCompleted`). -/
structure TxnResult (σ : Type) where
  state : σ
  status : AuxBus.status
  completed : Nat
deriving DecidableEq, Repr

/-- The single-transaction channel abstraction (`AuxBus`), modelled as a
state machine over channel states `σ`.  `transactionSize` is the maximum
byte count of one call; a real AUX transport moves at least one byte per
transaction, which `tsizePos` records. -/
structure Chan (σ : Type) where
  transactionSize : Nat
  tsizePos : 0 < transactionSize
  transaction : σ → AuxBus.Action → AuxBus.AddrType → Int → Nat → TxnResult σ

/-- The outcome classifier (`handleTransaction`, dp_auxretry.cpp lines
43-73).  The C++ takes `unsigned& retries` and mutates it; here the updated
budget is returned as the second component. -/
def handleTransaction (status : AuxBus.status) (completed size retries : Nat) :
    AuxRetry.status × Nat :=
  if status = AuxBus.status.success ∧ completed = size ∧ completed ≠ 0 then
    (AuxRetry.status.ack, retries)
  else if status = AuxBus.status.defer then
    if retries ≠ 0 then (AuxRetry.status.defer, retries - 1)
    else (AuxRetry.status.defer, retries)
  else if status = AuxBus.status.nack then
    (AuxRetry.status.nack, retries)
  else if completed = 0 then
    (AuxRetry.status.unsupportedRegister, retries)
  else if completed < size then
    if retries ≠ 0 then (AuxRetry.status.defer, retries - 1)
    else (AuxRetry.status.defer, retries)
  else
    (AuxRetry.status.ack, retries)

/-- Record of one single-transaction call issued to the channel. -/
structure TxnCall where
  action : AuxBus.Action
  ty : AuxBus.AddrType
  address : Int
  size : Nat
deriving DecidableEq, Repr

/-- Result of a retry-engine operation: final channel state, classified
outcome, and the list of single-transaction calls issued, in order. -/
structure RunResult (σ : Type) where
  state : σ
  result : AuxRetry.status
  calls : List TxnCall
deriving DecidableEq, Repr

/-- When the classifier returns `defer` the updated budget is the old budget
minus one (with `0 - 1 = 0` in `Nat`: branch 2 and branch 5 of the source
decrement only a nonzero budget and otherwise leave the zero budget). -/
theorem handleTransaction_defer_snd (st : AuxBus.status) (c sz r : Nat)
    (h : (handleTransaction st c sz r).1 = AuxRetry.status.defer) :
    (handleTransaction st c sz r).2 = r - 1 := by
  unfold handleTransaction at *
  split_ifs at * <;> simp_all

/-- Classifying a raw `defer` always yields outcome `defer` with the budget
decremented (saturating at zero). -/
theorem handleTransaction_defer (c sz r : Nat) :
    handleTransaction AuxBus.status.defer c sz r =
      (AuxRetry.status.defer, r - 1) := by
  unfold handleTransaction
  split_ifs <;> simp_all

/-- Classifying a full, nonempty success yields `ack` with the budget
untouched. -/
theorem handleTransaction_success_full (n r : Nat) (hn : n ≠ 0) :
    handleTransaction AuxBus.status.success n n r = (AuxRetry.status.ack, r) := by
  unfold handleTransaction
  rw [if_pos ⟨rfl, rfl, hn⟩]

/-- The shared do-while retry loop of `AuxRetry::readTransaction` (lines
83-101) and `AuxRetry::writeTransaction` (lines 109-127); the two bodies are
textually identical except for the action passed to the channel.  One
iteration = one channel transaction + one classification; a non-`defer`
outcome returns immediately; on `defer` the loop re-enters while the
(classifier-updated) budget is still nonzero, and returns `defer` once it
reaches zero.  (The `DP_ASSERT(size <= aux->transactionSize())` is a
diagnostic no-op in release builds and does not alter control flow.)
The C++ stores the transaction's results in locals `status`/`completed` and
the classifier's answer in `result`; in this pure model the repeated
`chan.transaction ...` / `handleTransaction ...` subterms all denote that
single per-iteration transaction and classification (the model is
state-passing, so re-mentioning the pure value performs no extra call; the
`calls` trace records exactly one call per iteration). -/
def transactionLoop (chan : Chan σ) (act : AuxBus.Action) (address : Int)
    (size : Nat) (s : σ) (retries : Nat) : RunResult σ :=
  if hne : (handleTransaction
        (chan.transaction s act AuxBus.AddrType.native address size).status
        (chan.transaction s act AuxBus.AddrType.native address size).completed
        size retries).1 ≠ AuxRetry.status.defer then
    ⟨(chan.transaction s act AuxBus.AddrType.native address size).state,
      (handleTransaction
        (chan.transaction s act AuxBus.AddrType.native address size).status
        (chan.transaction s act AuxBus.AddrType.native address size).completed
        size retries).1,
      [⟨act, AuxBus.AddrType.native, address, size⟩]⟩
  else if hz : (handleTransaction
        (chan.transaction s act AuxBus.AddrType.native address size).status
        (chan.transaction s act AuxBus.AddrType.native address size).completed
        size retries).2 = 0 then
    ⟨(chan.transaction s act AuxBus.AddrType.native address size).state,
      AuxRetry.status.defer, [⟨act, AuxBus.AddrType.native, address, size⟩]⟩
  else
    let rest := transactionLoop chan act address size
      (chan.transaction s act AuxBus.AddrType.native address size).state
      (handleTransaction
        (chan.transaction s act AuxBus.AddrType.native address size).status
        (chan.transaction s act AuxBus.AddrType.native address size).completed
        size retries).2
    ⟨rest.state, rest.result, ⟨act, AuxBus.AddrType.native, address, size⟩ :: rest.calls⟩
termination_by retries
decreasing_by
  have h1 := not_not.mp hne
  have h2 := handleTransaction_defer_snd _ _ _ _ h1
  omega

/-- Model of `AuxRetry::readTransaction` (dp_auxretry.cpp lines 83-101). -/
def AuxRetry.readTransaction (chan : Chan σ) (s : σ) (address : Int)
    (size retries : Nat) : RunResult σ :=
  transactionLoop chan AuxBus.Action.read address size s retries

/-- Model of `AuxRetry::writeTransaction` (dp_auxretry.cpp lines 109-127). -/
def AuxRetry.writeTransaction (chan : Chan σ) (s : σ) (address : Int)
    (size retries : Nat) : RunResult σ :=
  transactionLoop chan AuxBus.Action.write address size s retries

/-- The shared chunk loop of `AuxRetry::read` (dp_auxretry.cpp lines
133-143) and `AuxRetry::write` (lines 149-159); the two bodies are
textually identical except for the single-transaction variant invoked.  The
C++ iterates an offset `i` from `0` below `size` with
`chunkSize = DP_MIN(size - i, aux->transactionSize())`, calling the
single-transaction variant at `address + i` with a fresh copy of the
caller's retry budget, bailing out on the first non-`ack` chunk, and
advancing `i += chunkSize`; this model recurses on the remaining span,
which is the same re-indexing (`address`/`size` here play the role of
`address + i` / `size - i`). -/
def chunkLoop (chan : Chan σ) (act : AuxBus.Action) (address : Int)
    (size retries : Nat) (s : σ) : RunResult σ :=
  if hp : 0 < size then
    if hne : (transactionLoop chan act address (min size chan.transactionSize) s retries).result
        ≠ AuxRetry.status.ack then
      transactionLoop chan act address (min size chan.transactionSize) s retries
    else
      let rest := chunkLoop chan act (address + Nat.cast (min size chan.transactionSize))
        (size - min size chan.transactionSize) retries
        (transactionLoop chan act address (min size chan.transactionSize) s retries).state
      ⟨rest.state, rest.result,
        (transactionLoop chan act address (min size chan.transactionSize) s retries).calls
          ++ rest.calls⟩
  else ⟨s, AuxRetry.status.ack, []⟩
termination_by size
decreasing_by
  have h1 : 0 < min size chan.transactionSize := lt_min hp chan.tsizePos
  omega

/-- Model of `AuxRetry::read` (dp_auxretry.cpp lines 133-143). -/
def AuxRetry.read (chan : Chan σ) (s : σ) (address : Int)
    (size retries : Nat) : RunResult σ :=
  chunkLoop chan AuxBus.Action.read address size retries s

/-- Model of `AuxRetry::write` (dp_auxretry.cpp lines 149-159). -/
def AuxRetry.write (chan : Chan σ) (s : σ) (address : Int)
    (size retries : Nat) : RunResult σ :=
  chunkLoop chan AuxBus.Action.write address size retries s

/-- The chunk decomposition performed by the loop of `AuxRetry::read` /
`AuxRetry::write`: the list of (chunk address, chunk size) pairs, in the
order the loop issues them. -/
def chunks (address : Int) (size T : Nat) : List (Int × Nat) :=
  if h : 0 < size ∧ 0 < T then
    (address, min size T) :: chunks (address + Nat.cast (min size T)) (size - min size T) T
  else []
termination_by size
decreasing_by
  have h1 : 0 < min size T := lt_min h.1 h.2
  omega

/-- Sequential execution of an explicit list of chunks, each through the
single-transaction retry loop with a fresh budget, stopping at the first
non-`ack` chunk — the chunk-list view of `chunkLoop` (the two are related
by `chunkLoop_eq_runChunks`). -/
def runChunks (chan : Chan σ) (act : AuxBus.Action) (retries : Nat) :
    σ → List (Int × Nat) → RunResult σ
  | s, [] => ⟨s, AuxRetry.status.ack, []⟩
  | s, c :: rest =>
    if (transactionLoop chan act c.1 c.2 s retries).result ≠ AuxRetry.status.ack then
      transactionLoop chan act c.1 c.2 s retries
    else
      let k := runChunks chan act retries
        (transactionLoop chan act c.1 c.2 s retries).state rest
      ⟨k.state, k.result, (transactionLoop chan act c.1 c.2 s retries).calls ++ k.calls⟩

/-- Modelled from the spec: the decoded sideband-message header
(`MessageHeader`, declared in `dp_messageheader.h`, outside this file's
source).  The spec lists exactly the fields the logger consumes:
`headerSizeBits`, `isTransactionStart`, `isTransactionEnd`,
`messageNumber`, and a routing address (rendered to a string by the C++;
modelled as a bare `Nat`).  The logger only reads these fields. -/
structure MessageHeader where
  address : Nat
  headerSizeBits : Nat
  isTransactionStart : Bool
  isTransactionEnd : Bool
  messageNumber : Nat
deriving DecidableEq, Repr

/-- One `DP_PRINTF` trace line of the logging decorator, abstracted to its
structured content.  `hint` is the enriched mailbox line (line 192 of the
source, compiled only in debug builds): incompleteness flag, DPCD address,
decoded routing address, start/end flags, message number, and the byte
counts of the header/body hex dumps.  `plain` is the generic line (line
206): incompleteness flag, DPCD address, and the byte count of the single
hex dump. -/
inductive TraceLine where
  | hint (incomplete : Bool) (address : Int) (target : Nat)
      (isStart isEnd : Bool) (messageNumber : Nat)
      (headerBytes bodyBytes : Nat)
  | plain (incomplete : Bool) (address : Int) (dumpBytes : Nat)
deriving DecidableEq, Repr

/-- Result of one call to the logging decorator: the wrapped channel's next
state, the forwarded raw status and completed count, the list of bit counts
the header decoder was invoked with (`decodeCalls`, recording each
`decodeHeader` call and the `len * 8` bits handed to its
`BitStreamReader`), and the emitted trace lines. -/
structure LoggerResult (σ : Type) where
  state : σ
  status : AuxBus.status
  completed : Nat
  decodeCalls : List Nat
  trace : List TraceLine
deriving DecidableEq, Repr

/-- Modelled from the spec: the four reserved mailbox DPCD addresses
(down-request, up-reply, down-reply, up-request), fixed constants declared
in a DisplayPort header outside this file's source.  The numeric values are
the standard DPCD message-box offsets; no theorem below depends on the
values beyond their being four fixed constants. -/
def NV_DPCD_MBOX_DOWN_REQ : Int := 0x1000

/-- Modelled from the spec: the up-reply mailbox DPCD address. -/
def NV_DPCD_MBOX_UP_REP : Int := 0x1200

/-- Modelled from the spec: the down-reply mailbox DPCD address. -/
def NV_DPCD_MBOX_DOWN_REP : Int := 0x1400

/-- Modelled from the spec: the up-request mailbox DPCD address. -/
def NV_DPCD_MBOX_UP_REQ : Int := 0x1600

/-- Model of `AuxLogger::transaction` (dp_auxretry.cpp lines 161-211).  Parameters:
`bus` is the wrapped channel (`AuxLogger::bus`); `decode` models the
external collaborator `DisplayPort::decodeHeader` as a pure function of the
bit count made available to its `BitStreamReader` (buffer contents are
opaque in this model; the C++ ignores `decodeHeader`'s return status);
`debug` models the `#if defined(_DEBUG) || defined(DEBUG)` compile-time
toggle.  The C++ signature also receives `pNakReason`, `offset` and
`nWriteTransactions`, which the body never uses and does not forward.  On
the mailbox-success path the C++ computes both hex dumps, optionally (debug
only) emits the enriched line, and returns at line 199 without reaching the
plain `DP_PRINTF`; every other path falls through to the plain line. -/
def AuxLogger.transaction (bus : Chan σ) (decode : Nat → MessageHeader)
    (debug : Bool) (s : σ) (action : AuxBus.Action) (ty : AuxBus.AddrType)
    (address : Int) (sizeRequested : Nat) : LoggerResult σ :=
  let r := bus.transaction s action ty address sizeRequested
  if r.status = AuxBus.status.success ∧ ty = AuxBus.AddrType.native ∧
      (address = NV_DPCD_MBOX_DOWN_REQ ∨ address = NV_DPCD_MBOX_UP_REP ∨
       address = NV_DPCD_MBOX_DOWN_REP ∨ address = NV_DPCD_MBOX_UP_REQ) then
    ⟨r.state, r.status, r.completed, [r.completed * 8],
      if debug then
        [TraceLine.hint (sizeRequested ≠ r.completed) address
          (decode (r.completed * 8)).address
          (decode (r.completed * 8)).isTransactionStart
          (decode (r.completed * 8)).isTransactionEnd
          (decode (r.completed * 8)).messageNumber
          ((decode (r.completed * 8)).headerSizeBits / 8)
          (r.completed - (decode (r.completed * 8)).headerSizeBits / 8)]
      else []⟩
  else
    ⟨r.state, r.status, r.completed, [],
      [TraceLine.plain (sizeRequested ≠ r.completed) address r.completed]⟩

/-- A concrete channel that defers every transaction, counting calls in its
state. -/
def constDefer : Chan Nat where
  transactionSize := 16
  tsizePos := by decide
  transaction := fun s _ _ _ _ => ⟨s + 1, AuxBus.status.defer, 0⟩

/-- A concrete channel that completes every transaction in full,
counting calls in its state. -/
def constAck : Chan Nat where
  transactionSize := 16
  tsizePos := by decide
  transaction := fun s _ _ _ n => ⟨s + 1, AuxBus.status.success, n⟩

/-- A concrete channel that nacks its second call (call indices count from
zero in the state) and otherwise completes in full. -/
def nackSecond : Chan Nat where
  transactionSize := 16
  tsizePos := by decide
  transaction := fun s _ _ _ n =>
    if s = 1 then ⟨s + 1, AuxBus.status.nack, 0⟩
    else ⟨s + 1, AuxBus.status.success, n⟩

/-- A concrete channel that reports success with zero completed bytes. -/
def successEmpty : Chan Nat where
  transactionSize := 16
  tsizePos := by decide
  transaction := fun s _ _ _ _ => ⟨s + 1, AuxBus.status.success, 0⟩

/-- A concrete header decoder returning a fixed 3-byte (24-bit) header. -/
def decodeConst : Nat → MessageHeader :=
  fun _ => ⟨0, 24, false, false, 0⟩

example : (AuxRetry.readTransaction constDefer 0 0 4 1).calls.length = 1 := by
  simp [AuxRetry.readTransaction, transactionLoop, constDefer, handleTransaction]

example : (AuxRetry.readTransaction constDefer 0 0 4 3).calls.length = 3 := by
  simp [AuxRetry.readTransaction, transactionLoop, constDefer, handleTransaction]

example : chunks 0 40 16 = [(0, 16), (16, 16), (32, 8)] := by
  simp [chunks]

example : (AuxRetry.read constAck 0 0 40 2).calls.length = 3 := by
  simp [AuxRetry.read, chunkLoop, transactionLoop, constAck, handleTransaction]

example : (AuxRetry.write nackSecond 0 0 40 0).result = AuxRetry.status.nack ∧
    (AuxRetry.write nackSecond 0 0 40 0).calls.length = 2 := by
  constructor <;>
    simp [AuxRetry.write, chunkLoop, transactionLoop, nackSecond, handleTransaction]

/-- Against a channel that completes every transaction in full, one retry
loop with a nonzero request acks on its first attempt, issuing exactly one
single-transaction call. -/
theorem transactionLoop_allack (chan : Chan σ) (act : AuxBus.Action)
    (hack : ∀ s a t ad n, (chan.transaction s a t ad n).status = AuxBus.status.success ∧
      (chan.transaction s a t ad n).completed = n)
    (address : Int) (n : Nat) (hn : n ≠ 0) (s : σ) (r : Nat) :
    transactionLoop chan act address n s r =
      ⟨(chan.transaction s act AuxBus.AddrType.native address n).state,
        AuxRetry.status.ack, [⟨act, AuxBus.AddrType.native, address, n⟩]⟩ := by
  rw [transactionLoop]
  rw [(hack s act AuxBus.AddrType.native address n).1,
    (hack s act AuxBus.AddrType.native address n).2,
    handleTransaction_success_full n r hn]
  simp

/-- Against a channel that defers every transaction, the retry loop returns
`defer` after exactly `max 1 r` attempts: one attempt when the budget is
zero, `r` attempts when `r ≥ 1` (the budget reaches zero on attempt `r` and
the `while (retries)` test then stops the loop). -/
theorem transactionLoop_alldefer (chan : Chan σ) (act : AuxBus.Action)
    (hdef : ∀ s a t ad n, (chan.transaction s a t ad n).status = AuxBus.status.defer)
    (address : Int) (n : Nat) :
    ∀ r s, (transactionLoop chan act address n s r).result = AuxRetry.status.defer ∧
      (transactionLoop chan act address n s r).calls.length = max 1 r := by
  intro r
  induction r using Nat.strong_induction_on with
  | _ r ih =>
    intro s
    rw [transactionLoop]
    rw [hdef s act AuxBus.AddrType.native address n, handleTransaction_defer]
    by_cases hr : r - 1 = 0
    · simp [hr]
      omega
    · have hlt : r - 1 < r := by omega
      obtain ⟨ih1, ih2⟩ := ih (r - 1) hlt
        (chan.transaction s act AuxBus.AddrType.native address n).state
      simp [hr, ih1, ih2]
      omega

/-- The retry loop issues at most `max 1 r` single-transaction calls for
any channel behaviour: each iteration that continues has strictly
decreased the budget. -/
theorem transactionLoop_len (chan : Chan σ) (act : AuxBus.Action)
    (address : Int) (n : Nat) :
    ∀ r s, (transactionLoop chan act address n s r).calls.length ≤ max 1 r := by
  intro r
  induction r using Nat.strong_induction_on with
  | _ r ih =>
    intro s
    rw [transactionLoop]
    split
    · simp
    · split
      · simp
      · rename_i h1 h2
        have hd := not_not.mp h1
        have hsnd := handleTransaction_defer_snd _ _ _ _ hd
        rw [hsnd] at h2 ⊢
        have hlt : r - 1 < r := by omega
        have := ih (r - 1) hlt
          (chan.transaction s act AuxBus.AddrType.native address n).state
        simp
        omega

/-- The chunk loop is sequential execution of its chunk decomposition. -/
theorem chunkLoop_eq_runChunks (chan : Chan σ) (act : AuxBus.Action) (retries : Nat) :
    ∀ size address s, chunkLoop chan act address size retries s =
      runChunks chan act retries s (chunks address size chan.transactionSize) := by
  intro size
  induction size using Nat.strong_induction_on with
  | _ size ih =>
    intro address s
    rw [chunkLoop, chunks]
    by_cases hp : 0 < size
    · rw [dif_pos hp,
        dif_pos (⟨hp, chan.tsizePos⟩ : 0 < size ∧ 0 < chan.transactionSize)]
      simp only [runChunks]
      by_cases hne : (transactionLoop chan act address (min size chan.transactionSize) s
          retries).result ≠ AuxRetry.status.ack
      · rw [dif_pos hne, if_pos hne]
      · rw [dif_neg hne, if_neg hne]
        have hlt : size - min size chan.transactionSize < size := by
          have := lt_min hp chan.tsizePos; omega
        rw [ih (size - min size chan.transactionSize) hlt]
    · rw [dif_neg hp, dif_neg (fun hc => hp hc.1)]
      simp only [runChunks]

/-- Running an all-`ack` prefix of chunks and then continuing: the suffix
runs from the state the prefix reached, and the prefix's calls are
prepended. -/
theorem runChunks_append (chan : Chan σ) (act : AuxBus.Action) (retries : Nat) :
    ∀ (pre rest : List (Int × Nat)) (s s1 : σ) (tr1 : List TxnCall),
      runChunks chan act retries s pre = ⟨s1, AuxRetry.status.ack, tr1⟩ →
      runChunks chan act retries s (pre ++ rest) =
        ⟨(runChunks chan act retries s1 rest).state,
          (runChunks chan act retries s1 rest).result,
          tr1 ++ (runChunks chan act retries s1 rest).calls⟩ := by
  intro pre
  induction pre with
  | nil =>
    intro rest s s1 tr1 h
    simp only [runChunks] at h
    have hst : s = s1 := congrArg RunResult.state h
    have hcalls : ([] : List TxnCall) = tr1 := congrArg RunResult.calls h
    subst hst
    rw [List.nil_append, ← hcalls, List.nil_append]
  | cons c pre ih =>
    intro rest s s1 tr1 h
    rw [List.cons_append]
    simp only [runChunks] at h ⊢
    by_cases hne : (transactionLoop chan act c.1 c.2 s retries).result ≠ AuxRetry.status.ack
    · rw [if_pos hne] at h
      rw [h] at hne
      simp at hne
    · rw [if_neg hne] at h ⊢
      have hst : (runChunks chan act retries
          (transactionLoop chan act c.1 c.2 s retries).state pre).state = s1 :=
        congrArg RunResult.state h
      have hres : (runChunks chan act retries
          (transactionLoop chan act c.1 c.2 s retries).state pre).result =
          AuxRetry.status.ack :=
        congrArg RunResult.result h
      have hcalls : (transactionLoop chan act c.1 c.2 s retries).calls ++
          (runChunks chan act retries
            (transactionLoop chan act c.1 c.2 s retries).state pre).calls = tr1 :=
        congrArg RunResult.calls h
      have h1 : runChunks chan act retries
          (transactionLoop chan act c.1 c.2 s retries).state pre =
          ⟨s1, AuxRetry.status.ack,
            (runChunks chan act retries
              (transactionLoop chan act c.1 c.2 s retries).state pre).calls⟩ := by
        rw [← hst, ← hres]
      rw [ih rest _ s1 _ h1]
      rw [← hcalls, List.append_assoc]

/-- Against a channel that completes every transaction in full, the chunk
loop acks and issues exactly one single-transaction call per chunk of its
decomposition, in order. -/
theorem chunkLoop_allack (chan : Chan σ) (act : AuxBus.Action)
    (hack : ∀ s a t ad n, (chan.transaction s a t ad n).status = AuxBus.status.success ∧
      (chan.transaction s a t ad n).completed = n) (retries : Nat) :
    ∀ size address s,
      (chunkLoop chan act address size retries s).result = AuxRetry.status.ack ∧
      (chunkLoop chan act address size retries s).calls =
        (chunks address size chan.transactionSize).map
          (fun c => ⟨act, AuxBus.AddrType.native, c.1, c.2⟩) := by
  intro size
  induction size using Nat.strong_induction_on with
  | _ size ih =>
    intro address s
    rw [chunkLoop, chunks]
    by_cases hp : 0 < size
    · rw [dif_pos hp,
        dif_pos (⟨hp, chan.tsizePos⟩ : 0 < size ∧ 0 < chan.transactionSize)]
      have hmin : min size chan.transactionSize ≠ 0 := by
        have := lt_min hp chan.tsizePos; omega
      rw [transactionLoop_allack chan act hack address _ hmin s retries]
      have hlt : size - min size chan.transactionSize < size := by
        have := lt_min hp chan.tsizePos; omega
      obtain ⟨ih1, ih2⟩ := ih (size - min size chan.transactionSize) hlt
        (address + ((size : Int) ⊓ (chan.transactionSize : Int)))
        (chan.transaction s act AuxBus.AddrType.native address
          (min size chan.transactionSize)).state
      simp [ih1, ih2]
    · rw [dif_neg hp, dif_neg (fun hc => hp hc.1)]
      simp

/-- The chunk decomposition has exactly `⌈size / T⌉` chunks. -/
theorem chunks_length (T : Nat) (hT : 0 < T) :
    ∀ size address, (chunks address size T).length = (size + T - 1) / T := by
  intro size
  induction size using Nat.strong_induction_on with
  | _ size ih =>
    intro address
    rw [chunks]
    by_cases hp : 0 < size
    · rw [dif_pos ⟨hp, hT⟩]
      simp only [List.length_cons]
      have hlt : size - min size T < size := by have := lt_min hp hT; omega
      rw [ih (size - min size T) hlt]
      by_cases hle : size ≤ T
      · have hmin : min size T = size := min_eq_left hle
        rw [hmin]
        have h0 : (size - size + T - 1) / T = 0 := Nat.div_eq_of_lt (by omega)
        have h1 : (size + T - 1) / T = 1 :=
          Nat.div_eq_of_lt_le (by omega) (by omega)
        omega
      · have hmin : min size T = T := min_eq_right (by omega)
        rw [hmin]
        have e1 : size - T + T - 1 = size - 1 := by omega
        have e2 : size + T - 1 = (size - 1) + T := by omega
        rw [e1, e2, Nat.add_div_right _ hT]
    · rw [dif_neg (fun hc => hp hc.1)]
      have hz : size = 0 := by omega
      subst hz
      have h0 : (0 + T - 1) / T = 0 := Nat.div_eq_of_lt (by omega)
      simp only [List.length_nil, h0]

/-- The chunk address ranges, concatenated in issue order, are exactly the
byte addresses `address, address+1, …, address+size-1`: consecutive
ascending chunks with no overlap and no gap. -/
theorem chunks_flatten (T : Nat) (hT : 0 < T) :
    ∀ size address,
      ((chunks address size T).map fun c =>
        (List.range c.2).map fun (j : Nat) => c.1 + (j : Int)).flatten
        = (List.range size).map fun (j : Nat) => address + (j : Int) := by
  intro size
  induction size using Nat.strong_induction_on with
  | _ size ih =>
    intro address
    rw [chunks]
    by_cases hp : 0 < size
    · rw [dif_pos ⟨hp, hT⟩]
      simp only [List.map_cons, List.flatten_cons]
      have hlt : size - min size T < size := by have := lt_min hp hT; omega
      rw [ih (size - min size T) hlt]
      have key : List.range size = List.range (min size T) ++
          (List.range (size - min size T)).map (fun x => min size T + x) := by
        conv_lhs => rw [show size = min size T + (size - min size T) from by omega]
        exact List.range_add _ _
      rw [key, List.map_append, List.map_map]
      congr 1
      refine List.map_congr_left fun x hx => ?_
      simp only [Function.comp]
      push_cast
      ring
    · rw [dif_neg (fun hc => hp hc.1)]
      have hz : size = 0 := by omega
      subst hz
      simp

/-- Generic early-exit property of the chunk loop: if the chunk
decomposition splits as `pre ++ ck :: post`, the prefix `pre` runs all-ack
reaching state `s1` with calls `tr1`, and chunk `ck` then yields a
non-`ack` outcome `o` with calls `tr2`, the whole loop stops there: it
returns `o`, and its call trace is `tr1 ++ tr2` — no call for any chunk of
`post` is issued. -/
theorem chunkLoop_earlyExit {σ : Type} (chan : Chan σ) (act : AuxBus.Action)
    (s s1 s2 : σ) (address : Int) (L retries : Nat)
    (pre post : List (Int × Nat)) (ck : Int × Nat)
    (o : AuxRetry.status) (tr1 tr2 : List TxnCall)
    (hsplit : chunks address L chan.transactionSize = pre ++ ck :: post)
    (hpre : runChunks chan act retries s pre = ⟨s1, AuxRetry.status.ack, tr1⟩)
    (hck : transactionLoop chan act ck.1 ck.2 s1 retries = ⟨s2, o, tr2⟩)
    (hno : o ≠ AuxRetry.status.ack) :
    chunkLoop chan act address L retries s = ⟨s2, o, tr1 ++ tr2⟩ := by
  rw [chunkLoop_eq_runChunks chan act retries L address s, hsplit]
  rw [runChunks_append chan act retries pre (ck :: post) s s1 tr1 hpre]
  have hstep : runChunks chan act retries s1 (ck :: post) = ⟨s2, o, tr2⟩ := by
    simp only [runChunks, hck]
    rw [if_pos (show (RunResult.mk s2 o tr2).result ≠ AuxRetry.status.ack from hno)]
  rw [hstep]

/-- Claim C7: for every raw status, completed count, requested size and
budget with `completed ≤ size`, if the classifier returns `ack` then the
transaction completed in full (`completed = size`) and the request was
nonempty (`0 < size`). -/
theorem classifierAckInv (st : AuxBus.status) (completed size retries : Nat)
    (hle : completed ≤ size)
    (hack : (handleTransaction st completed size retries).1 = AuxRetry.status.ack) :
    completed = size ∧ 0 < size := by
  unfold handleTransaction at hack
  split_ifs at hack <;> simp_all <;> omega

/-- Witness for `classifierAckInv` at the concrete input
`(success, 4, 4, 5)`. -/
theorem classifierAckInv_witness : (4 : Nat) = 4 ∧ 0 < (4 : Nat) :=
  classifierAckInv AuxBus.status.success 4 4 5 (by decide) (by decide)

/-- Claim C8: classifying a raw `defer` with retry budget `0` returns
outcome `defer` and leaves the budget at `0` — the budget is never
decremented below zero. -/
theorem classifierDeferExhausted (completed size : Nat) :
    handleTransaction AuxBus.status.defer completed size 0 =
      (AuxRetry.status.defer, 0) := by
  simpa using handleTransaction_defer completed size 0

/-- Claim C9: `readTransaction` and `writeTransaction` are total (they are
well-founded definitions: every iteration that continues strictly decreases
the retry budget), and their retry loop issues at most `max 1 retries`
single-transaction attempts, for every channel behaviour. -/
theorem retryLoopBounded {σ : Type} (chan : Chan σ) (s : σ) (address : Int)
    (size retries : Nat) :
    (AuxRetry.readTransaction chan s address size retries).calls.length ≤ max 1 retries ∧
    (AuxRetry.writeTransaction chan s address size retries).calls.length ≤ max 1 retries :=
  ⟨transactionLoop_len chan AuxBus.Action.read address size retries s,
   transactionLoop_len chan AuxBus.Action.write address size retries s⟩

/-- Claim C1 counterexample: with retry budget `r = 1` and a channel that
always defers, `readTransaction` issues exactly one single-transaction
attempt before returning `defer`, not `r + 1 = 2` as the claim states (the
first attempt decrements the budget from 1 to 0 and the `while (retries)`
test then ends the loop). -/
theorem retryExhaustion_cex :
    (AuxRetry.readTransaction constDefer 0 0 4 1).result = AuxRetry.status.defer ∧
    (AuxRetry.readTransaction constDefer 0 0 4 1).calls.length = 1 ∧
    (AuxRetry.readTransaction constDefer 0 0 4 1).calls.length ≠ 1 + 1 := by
  refine ⟨?_, ?_, ?_⟩ <;>
    simp [AuxRetry.readTransaction, transactionLoop, constDefer, handleTransaction]

/-- Claim C1 (amended): for every retry budget `r`, if the channel returns
`defer` on every attempt, `readTransaction` and `writeTransaction` issue
exactly `max 1 r` single-transaction attempts — one attempt when `r = 0`,
`r` attempts when `r ≥ 1` — and then return `defer`. -/
theorem retryExhaustion_attempts {σ : Type} (chan : Chan σ) (s : σ)
    (address : Int) (size retries : Nat)
    (hdef : ∀ s' a t ad n,
      (chan.transaction s' a t ad n).status = AuxBus.status.defer) :
    (AuxRetry.readTransaction chan s address size retries).result =
      AuxRetry.status.defer ∧
    (AuxRetry.readTransaction chan s address size retries).calls.length =
      max 1 retries ∧
    (AuxRetry.writeTransaction chan s address size retries).result =
      AuxRetry.status.defer ∧
    (AuxRetry.writeTransaction chan s address size retries).calls.length =
      max 1 retries := by
  obtain ⟨r1, r2⟩ :=
    transactionLoop_alldefer chan AuxBus.Action.read hdef address size retries s
  obtain ⟨w1, w2⟩ :=
    transactionLoop_alldefer chan AuxBus.Action.write hdef address size retries s
  exact ⟨r1, r2, w1, w2⟩

/-- Witness for `retryExhaustion_attempts` with the always-defer channel
and budget 3: three attempts on each side. -/
theorem retryExhaustion_attempts_witness :
    (AuxRetry.readTransaction constDefer 0 0 4 3).result = AuxRetry.status.defer ∧
    (AuxRetry.readTransaction constDefer 0 0 4 3).calls.length = max 1 3 ∧
    (AuxRetry.writeTransaction constDefer 0 0 4 3).result = AuxRetry.status.defer ∧
    (AuxRetry.writeTransaction constDefer 0 0 4 3).calls.length = max 1 3 :=
  retryExhaustion_attempts constDefer 0 0 4 3 (fun _ _ _ _ _ => rfl)

/-- Claim C10: calling `read` or `write` with `size = 0` returns `ack`,
leaves the channel state untouched, and issues zero single-transaction
calls (hence the buffer, which only the channel ever touches, is untouched
as well). -/
theorem zeroSizeReadWrite {σ : Type} (chan : Chan σ) (s : σ) (address : Int)
    (retries : Nat) :
    AuxRetry.read chan s address 0 retries = ⟨s, AuxRetry.status.ack, []⟩ ∧
    AuxRetry.write chan s address 0 retries = ⟨s, AuxRetry.status.ack, []⟩ := by
  refine ⟨?_, ?_⟩ <;> simp [AuxRetry.read, AuxRetry.write, chunkLoop]

/-- Claim C4: for span length `L > 0` against a channel that completes
every transaction in full, `read` and `write` return `ack` and issue
exactly one single-transaction call per chunk of the decomposition
`chunks address L T`, in order; that decomposition has exactly
`⌈L / T⌉ = (L + T - 1) / T` chunks, and its address ranges, concatenated
in issue order, are exactly `address, address+1, …, address+L-1` —
ascending, tiling `[address, address+L)` with no overlap and no gap. -/
theorem chunkTiling {σ : Type} (chan : Chan σ) (s : σ) (address : Int)
    (L retries : Nat) (hL : 0 < L)
    (hack : ∀ s' a t ad n,
      (chan.transaction s' a t ad n).status = AuxBus.status.success ∧
      (chan.transaction s' a t ad n).completed = n) :
    (AuxRetry.read chan s address L retries).result = AuxRetry.status.ack ∧
    (AuxRetry.read chan s address L retries).calls =
      (chunks address L chan.transactionSize).map
        (fun c => ⟨AuxBus.Action.read, AuxBus.AddrType.native, c.1, c.2⟩) ∧
    (AuxRetry.write chan s address L retries).result = AuxRetry.status.ack ∧
    (AuxRetry.write chan s address L retries).calls =
      (chunks address L chan.transactionSize).map
        (fun c => ⟨AuxBus.Action.write, AuxBus.AddrType.native, c.1, c.2⟩) ∧
    (chunks address L chan.transactionSize).length =
      (L + chan.transactionSize - 1) / chan.transactionSize ∧
    ((chunks address L chan.transactionSize).map fun c =>
      (List.range c.2).map fun (j : Nat) => c.1 + (j : Int)).flatten =
      (List.range L).map fun (j : Nat) => address + (j : Int) := by
  obtain ⟨r1, r2⟩ := chunkLoop_allack chan AuxBus.Action.read hack retries L address s
  obtain ⟨w1, w2⟩ := chunkLoop_allack chan AuxBus.Action.write hack retries L address s
  exact ⟨r1, r2, w1, w2,
    chunks_length chan.transactionSize chan.tsizePos L address,
    chunks_flatten chan.transactionSize chan.tsizePos L address⟩

/-- Witness for `chunkTiling`: transaction size 16, span 40 from address 0:
three chunks (16, 16, 8 bytes), three calls, overall `ack`. -/
theorem chunkTiling_witness :
    (AuxRetry.read constAck 0 0 40 2).result = AuxRetry.status.ack ∧
    (AuxRetry.read constAck 0 0 40 2).calls =
      (chunks 0 40 constAck.transactionSize).map
        (fun c => ⟨AuxBus.Action.read, AuxBus.AddrType.native, c.1, c.2⟩) ∧
    (AuxRetry.write constAck 0 0 40 2).result = AuxRetry.status.ack ∧
    (AuxRetry.write constAck 0 0 40 2).calls =
      (chunks 0 40 constAck.transactionSize).map
        (fun c => ⟨AuxBus.Action.write, AuxBus.AddrType.native, c.1, c.2⟩) ∧
    (chunks 0 40 constAck.transactionSize).length =
      (40 + constAck.transactionSize - 1) / constAck.transactionSize ∧
    ((chunks 0 40 constAck.transactionSize).map fun c =>
      (List.range c.2).map fun (j : Nat) => c.1 + (j : Int)).flatten =
      (List.range 40).map fun (j : Nat) => (0 : Int) + (j : Int) :=
  chunkTiling constAck 0 0 40 2 (by decide) (fun _ _ _ _ _ => ⟨rfl, rfl⟩)

/-- Claim C5: on a multi-chunk `read` or `write`, if the chunks before `k`
all ack and chunk `k` yields an outcome other than `ack`, then the call
stops at chunk `k`: no later chunk is attempted (the call trace is exactly
the prefix's calls followed by chunk `k`'s calls) and the overall result is
chunk `k`'s outcome.  `AuxRetry.read` and `AuxRetry.write` are the chunk
loop at the two actions, so the statement is given for both. -/
theorem earlyExit {σ : Type} (chan : Chan σ) (s sR1 sR2 sW1 sW2 : σ)
    (address : Int) (L retries : Nat)
    (preR postR preW postW : List (Int × Nat)) (ckR ckW : Int × Nat)
    (oR oW : AuxRetry.status) (trR1 trR2 trW1 trW2 : List TxnCall)
    (hsplitR : chunks address L chan.transactionSize = preR ++ ckR :: postR)
    (hpreR : runChunks chan AuxBus.Action.read retries s preR =
      ⟨sR1, AuxRetry.status.ack, trR1⟩)
    (hckR : transactionLoop chan AuxBus.Action.read ckR.1 ckR.2 sR1 retries =
      ⟨sR2, oR, trR2⟩)
    (hnoR : oR ≠ AuxRetry.status.ack)
    (hsplitW : chunks address L chan.transactionSize = preW ++ ckW :: postW)
    (hpreW : runChunks chan AuxBus.Action.write retries s preW =
      ⟨sW1, AuxRetry.status.ack, trW1⟩)
    (hckW : transactionLoop chan AuxBus.Action.write ckW.1 ckW.2 sW1 retries =
      ⟨sW2, oW, trW2⟩)
    (hnoW : oW ≠ AuxRetry.status.ack) :
    AuxRetry.read chan s address L retries = ⟨sR2, oR, trR1 ++ trR2⟩ ∧
    AuxRetry.write chan s address L retries = ⟨sW2, oW, trW1 ++ trW2⟩ :=
  ⟨chunkLoop_earlyExit chan AuxBus.Action.read s sR1 sR2 address L retries
      preR postR ckR oR trR1 trR2 hsplitR hpreR hckR hnoR,
   chunkLoop_earlyExit chan AuxBus.Action.write s sW1 sW2 address L retries
      preW postW ckW oW trW1 trW2 hsplitW hpreW hckW hnoW⟩

/-- Witness for `earlyExit`: a 40-byte span (3 chunks of 16, 16, 8) against
a channel that nacks its second call: exactly two calls are issued and the
overall result is `nack`, for both `read` and `write`. -/
theorem earlyExit_witness :
    AuxRetry.read nackSecond 0 0 40 0 =
      ⟨2, AuxRetry.status.nack,
        [⟨AuxBus.Action.read, AuxBus.AddrType.native, 0, 16⟩,
         ⟨AuxBus.Action.read, AuxBus.AddrType.native, 16, 16⟩]⟩ ∧
    AuxRetry.write nackSecond 0 0 40 0 =
      ⟨2, AuxRetry.status.nack,
        [⟨AuxBus.Action.write, AuxBus.AddrType.native, 0, 16⟩,
         ⟨AuxBus.Action.write, AuxBus.AddrType.native, 16, 16⟩]⟩ :=
  earlyExit nackSecond 0 1 2 1 2 0 40 0
    [(0, 16)] [(32, 8)] [(0, 16)] [(32, 8)] (16, 16) (16, 16)
    AuxRetry.status.nack AuxRetry.status.nack
    [⟨AuxBus.Action.read, AuxBus.AddrType.native, 0, 16⟩]
    [⟨AuxBus.Action.read, AuxBus.AddrType.native, 16, 16⟩]
    [⟨AuxBus.Action.write, AuxBus.AddrType.native, 0, 16⟩]
    [⟨AuxBus.Action.write, AuxBus.AddrType.native, 16, 16⟩]
    (by simp [chunks, nackSecond])
    (by simp [runChunks, transactionLoop, nackSecond, handleTransaction])
    (by simp [transactionLoop, nackSecond, handleTransaction])
    (by decide)
    (by simp [chunks, nackSecond])
    (by simp [runChunks, transactionLoop, nackSecond, handleTransaction])
    (by simp [transactionLoop, nackSecond, handleTransaction])
    (by decide)

/-- Claim C6: for every input, the logging decorator returns exactly the
status and completed size produced by the wrapped channel's transaction on
the same input, unchanged, on every path (success, failure, mailbox or
not), and leaves the channel in exactly the state that single forwarded
transaction produced. -/
theorem loggerPassthrough {σ : Type} (bus : Chan σ) (decode : Nat → MessageHeader)
    (debug : Bool) (s : σ) (action : AuxBus.Action) (ty : AuxBus.AddrType)
    (address : Int) (sizeRequested : Nat) :
    (AuxLogger.transaction bus decode debug s action ty address sizeRequested).status =
      (bus.transaction s action ty address sizeRequested).status ∧
    (AuxLogger.transaction bus decode debug s action ty address sizeRequested).completed =
      (bus.transaction s action ty address sizeRequested).completed ∧
    (AuxLogger.transaction bus decode debug s action ty address sizeRequested).state =
      (bus.transaction s action ty address sizeRequested).state := by
  simp only [AuxLogger.transaction]
  split <;> exact ⟨rfl, rfl, rfl⟩

/-- Claim C2 counterexample: a successful, fully-completed transaction at
the down-request mailbox address with native addressing, in a non-debug
build: the decorator emits no trace line at all — the `return` on the
mailbox-success path is reached before the plain `DP_PRINTF`, and the
enriched `DP_PRINTF` is compiled out — refuting the claim that a dump line
without the hint remains. -/
theorem loggerMailboxTrace_cex :
    (AuxLogger.transaction constAck decodeConst false 0 AuxBus.Action.read
      AuxBus.AddrType.native NV_DPCD_MBOX_DOWN_REQ 16).status =
        AuxBus.status.success ∧
    (AuxLogger.transaction constAck decodeConst false 0 AuxBus.Action.read
      AuxBus.AddrType.native NV_DPCD_MBOX_DOWN_REQ 16).completed = 16 ∧
    (AuxLogger.transaction constAck decodeConst false 0 AuxBus.Action.read
      AuxBus.AddrType.native NV_DPCD_MBOX_DOWN_REQ 16).trace = [] := by
  refine ⟨?_, ?_, ?_⟩ <;> rfl

/-- Claim C2 (amended): for every successful native transaction at one of
the four reserved mailbox addresses, the decorator emits the single
enriched trace line (with the header-derived fields and the header/body
hex dumps) when the debug toggle is on, and emits no trace line at all
when it is off — the plain dump line is skipped by the early return on
this path, so nothing "remains" in a non-debug build. -/
theorem loggerMailboxTrace {σ : Type} (bus : Chan σ) (decode : Nat → MessageHeader)
    (s : σ) (action : AuxBus.Action) (address : Int) (sizeRequested : Nat)
    (hst : (bus.transaction s action AuxBus.AddrType.native address
      sizeRequested).status = AuxBus.status.success)
    (hmb : address = NV_DPCD_MBOX_DOWN_REQ ∨ address = NV_DPCD_MBOX_UP_REP ∨
      address = NV_DPCD_MBOX_DOWN_REP ∨ address = NV_DPCD_MBOX_UP_REQ) :
    (AuxLogger.transaction bus decode false s action AuxBus.AddrType.native
      address sizeRequested).trace = [] ∧
    (AuxLogger.transaction bus decode true s action AuxBus.AddrType.native
      address sizeRequested).trace =
      [TraceLine.hint
        (sizeRequested ≠ (bus.transaction s action AuxBus.AddrType.native
          address sizeRequested).completed)
        address
        (decode ((bus.transaction s action AuxBus.AddrType.native address
          sizeRequested).completed * 8)).address
        (decode ((bus.transaction s action AuxBus.AddrType.native address
          sizeRequested).completed * 8)).isTransactionStart
        (decode ((bus.transaction s action AuxBus.AddrType.native address
          sizeRequested).completed * 8)).isTransactionEnd
        (decode ((bus.transaction s action AuxBus.AddrType.native address
          sizeRequested).completed * 8)).messageNumber
        ((decode ((bus.transaction s action AuxBus.AddrType.native address
          sizeRequested).completed * 8)).headerSizeBits / 8)
        ((bus.transaction s action AuxBus.AddrType.native address
          sizeRequested).completed -
          (decode ((bus.transaction s action AuxBus.AddrType.native address
            sizeRequested).completed * 8)).headerSizeBits / 8)] := by
  simp only [AuxLogger.transaction]
  have hc : (bus.transaction s action AuxBus.AddrType.native address
      sizeRequested).status = AuxBus.status.success ∧ True ∧
      (address = NV_DPCD_MBOX_DOWN_REQ ∨ address = NV_DPCD_MBOX_UP_REP ∨
       address = NV_DPCD_MBOX_DOWN_REP ∨ address = NV_DPCD_MBOX_UP_REQ) :=
    ⟨hst, trivial, hmb⟩
  rw [if_pos hc, if_pos hc]
  exact ⟨rfl, rfl⟩

/-- Witness for `loggerMailboxTrace` at the down-request mailbox with a
fully-completing channel and the constant 3-byte-header decoder: no trace
line in non-debug, exactly the enriched line (3 header bytes, 13 body
bytes) in debug. -/
theorem loggerMailboxTrace_witness :
    (AuxLogger.transaction constAck decodeConst false 0 AuxBus.Action.read
      AuxBus.AddrType.native NV_DPCD_MBOX_DOWN_REQ 16).trace = [] ∧
    (AuxLogger.transaction constAck decodeConst true 0 AuxBus.Action.read
      AuxBus.AddrType.native NV_DPCD_MBOX_DOWN_REQ 16).trace =
      [TraceLine.hint false NV_DPCD_MBOX_DOWN_REQ 0 false false 0 3 13] :=
  loggerMailboxTrace constAck decodeConst 0 AuxBus.Action.read
    NV_DPCD_MBOX_DOWN_REQ 16 rfl (Or.inl rfl)

/-- Claim C3 counterexample: a transaction at the down-request mailbox that
reports success with zero completed bytes: the decorator still invokes the
header decoder, handing it a `BitStreamReader` over `0 * 8 = 0` available
bits — fewer than any positive presumed minimum header size — so the
decoder's insufficient-bits branch is reachable from the decorator. -/
theorem loggerDecodeGate_cex :
    (AuxLogger.transaction successEmpty decodeConst true 0 AuxBus.Action.read
      AuxBus.AddrType.native NV_DPCD_MBOX_DOWN_REQ 16).completed = 0 ∧
    (AuxLogger.transaction successEmpty decodeConst true 0 AuxBus.Action.read
      AuxBus.AddrType.native NV_DPCD_MBOX_DOWN_REQ 16).decodeCalls = [0] := by
  refine ⟨?_, ?_⟩ <;> rfl

/-- Claim C3 (amended): the decorator invokes the header decoder exactly
when the forwarded transaction succeeded with native addressing at one of
the four reserved mailbox addresses — with no minimum on the completed
byte count — and every invocation hands the decoder `completed * 8`
available bits. -/
theorem loggerDecodeGate {σ : Type} (bus : Chan σ) (decode : Nat → MessageHeader)
    (debug : Bool) (s : σ) (action : AuxBus.Action) (ty : AuxBus.AddrType)
    (address : Int) (sizeRequested : Nat) :
    ((AuxLogger.transaction bus decode debug s action ty address
        sizeRequested).decodeCalls ≠ [] ↔
      ((bus.transaction s action ty address sizeRequested).status =
          AuxBus.status.success ∧ ty = AuxBus.AddrType.native ∧
        (address = NV_DPCD_MBOX_DOWN_REQ ∨ address = NV_DPCD_MBOX_UP_REP ∨
         address = NV_DPCD_MBOX_DOWN_REP ∨ address = NV_DPCD_MBOX_UP_REQ))) ∧
    ∀ b ∈ (AuxLogger.transaction bus decode debug s action ty address
      sizeRequested).decodeCalls,
      b = (bus.transaction s action ty address sizeRequested).completed * 8 := by
  simp only [AuxLogger.transaction]
  split
  · rename_i hc
    refine ⟨⟨fun _ => hc, fun _ => by simp⟩, ?_⟩
    intro b hb
    simp at hb
    exact hb
  · rename_i hc
    refine ⟨⟨fun hne => absurd rfl hne, fun h => absurd h hc⟩, ?_⟩
    intro b hb
    simp at hb
